import Mathlib

/-!
Shallow embedding of the workflow execution engine of the Workflow_OS
repository (`src/backend/server.py`, class `EnterpriseWorkflowEngine`, plus
the rewind endpoint of `src/backend/enterprise_endpoints.py`).

Modelling conventions:
* The single task record mutated by the engine is the `Task` structure; the
  Mongo document store is represented by explicit state passing.
* Wall-clock timestamps (`started_at`, `requested_at`, `completed_at`,
  `rewound_at`, `updated_at`) are opaque environment inputs that no engine
  decision reads; they are elided from the record structures.
* Variable values are modelled as integers (the engine never inspects them).
* Each engine method returns the task record as left in the store together
  with an optional error message (`HTTPException` detail).  A method that
  raises after having issued a database update returns the partially
  updated record, exactly as the store would hold it.
-/

namespace WorkflowOS

/-- An edge of a workflow definition graph: `{source, target, label?}`. -/
structure Edge where
  source : String
  target : String
  label : Option String
deriving Repr, DecidableEq

/-- `retry_policy` of a workflow node (Pydantic default factory gives
`{max_attempts := 3, delay_seconds := 60, backoff := true}`). -/
structure RetryPolicy where
  max_attempts : Nat
  delay_seconds : Nat
  backoff : Bool
deriving Repr, DecidableEq

/-- A workflow node.  `data_condition` models the `data.condition` string of
condition nodes; the engine in `server.py` never reads it. -/
structure WorkflowNode where
  id : String
  type : String
  label : String
  data_condition : Option String
  retry_policy : Option RetryPolicy
  on_error_next_node : Option String
deriving Repr, DecidableEq

/-- A workflow definition: ordered nodes, edges, default variables. -/
structure Workflow where
  nodes : List WorkflowNode
  edges : List Edge
  vars : List (String × Int)
deriving Repr, DecidableEq

/-- One row of `workflow_state.step_history`.  `actor` stands for the
`started_by` / `completed_by` / `rewound_by` field of the corresponding
Python dict, `comment` for its `comment` / `reason` field. -/
structure HistoryEntry where
  step_id : String
  step_name : String
  status : String
  actor : Option String
  comment : Option String
deriving Repr, DecidableEq

/-- One entry of `workflow_state.pending_approvals`. -/
structure PendingApproval where
  step_id : String
  step_name : String
  assigned_to : String
deriving Repr, DecidableEq

/-- The non-rewind fields of a `workflow_state`, used for rewind snapshots. -/
structure CoreState where
  current_step : Option String
  step_history : List HistoryEntry
  pending_approvals : List PendingApproval
  completed_steps : List String
  vars : List (String × Int)
deriving Repr, DecidableEq

/-- One backup appended to `rewind_history` by the enterprise rewind
endpoint: the snapshot of the prior state (its core fields, plus the length
of its own nested `rewind_history`, the deeper nesting being elided),
the acting user and the reason. -/
structure RewindBackup where
  snapshot : CoreState
  snapshot_rewind_count : Nat
  rewound_by : String
  reason : String
deriving Repr, DecidableEq

/-- The `workflow_state` document stored on a task. -/
structure WorkflowState where
  current_step : Option String
  step_history : List HistoryEntry
  pending_approvals : List PendingApproval
  completed_steps : List String
  vars : List (String × Int)
  rewind_history : List RewindBackup
deriving Repr, DecidableEq

/-- Project the core (snapshot-relevant) fields of a `workflow_state`. -/
def WorkflowState.core (ws : WorkflowState) : CoreState :=
  ⟨ws.current_step, ws.step_history, ws.pending_approvals,
   ws.completed_steps, ws.vars⟩

/-- The task execution record (the fields of the `Task` model the engine
reads or writes). -/
structure Task where
  status : String
  workflow_id : Option String
  workflow_state : WorkflowState
deriving Repr, DecidableEq

/-- The Pydantic default `workflow_state` of a freshly created task. -/
def emptyWorkflowState : WorkflowState :=
  ⟨none, [], [], [], [], []⟩

/-- A freshly created task record: `status = "new"`, default state. -/
def mkTask (wid : Option String) : Task :=
  ⟨"new", wid, emptyWorkflowState⟩

/-- The workflow definition store (`db.workflows.find_one` by id). -/
def WorkflowStore : Type := String → Option Workflow

/-- Result of one engine method: the task record as left in the store,
and the detail of the raised `HTTPException` when one was raised. -/
structure OpOut where
  task : Task
  error : Option String
deriving Repr, DecidableEq

/-- Merge of Python dicts `{**a, **b}` on association lists: entries of `b`
override entries of `a`. -/
def mergeVars (a b : List (String × Int)) : List (String × Int) :=
  a.filter (fun p => !(b.map Prod.fst).contains p.1) ++ b

/-- The start-node test of `start_workflow` (server.py line 268): a node
qualifies when its id is the target of no edge, or its type is `"task"`. -/
def startQualifies (wf : Workflow) (node : WorkflowNode) : Bool :=
  !((wf.edges.map (·.target)).contains node.id) || node.type == "task"

/-- Start-node search of `start_workflow` (server.py lines 262-270): the
first qualifying node in definition order. -/
def findFirstNode (wf : Workflow) : Option WorkflowNode :=
  wf.nodes.find? (startQualifies wf)

/-- `EnterpriseWorkflowEngine.start_workflow` (server.py lines 256-302).
Looks the workflow up, picks the start node, and overwrites the task's
`workflow_state` with a fresh one (note: the fresh dict has no
`rewind_history` key, so any prior rewind history is dropped). -/
def start_workflow (store : WorkflowStore) (t : Task) (workflow_id user_id : String)
    (initial_variables : List (String × Int)) : OpOut :=
  match store workflow_id with
  | none => ⟨t, some "Workflow not found"⟩
  | some wf =>
    match findFirstNode wf with
    | none => ⟨t, some "Workflow has no starting node"⟩
    | some first_node =>
      let ws : WorkflowState :=
        { current_step := some first_node.id
          step_history := [⟨first_node.id, first_node.label, "started", some user_id, none⟩]
          pending_approvals := []
          completed_steps := []
          vars := mergeVars wf.vars initial_variables
          rewind_history := [] }
      ⟨{ t with workflow_id := some workflow_id, workflow_state := ws,
                status := "in_progress" }, none⟩

/-- Next-step search of `progress_workflow` (server.py lines 442-447): the
target of the first edge whose source is the current step.  No edge label
and no condition is consulted. -/
def findNextStep (wf : Workflow) (current : String) : Option String :=
  (wf.edges.find? (fun e => e.source == current)).map (·.target)

/-- Node lookup by id (server.py lines 463-467). -/
def findNode (wf : Workflow) (nid : String) : Option WorkflowNode :=
  wf.nodes.find? (fun n => n.id == nid)

/-- `EnterpriseWorkflowEngine.progress_workflow` (server.py lines 428-516).
With no outgoing edge the task is completed (`status = "completed"`,
`current_step = null`); onto an `approval` node a pending approval and a
`pending_approval` history row are recorded; otherwise the task advances
with a `started` history row and the prior step is pushed onto
`completed_steps`.  A missing workflow definition makes the Python code
crash on `None.get` before any write; that is the last error case. -/
def progress_workflow (store : WorkflowStore) (t : Task) (user_id : String)
    (comment : Option String) : OpOut :=
  match t.workflow_state.current_step with
  | none => ⟨t, some "No active workflow"⟩
  | some current_step_id =>
    match t.workflow_id.bind store with
    | none => ⟨t, some "internal error: workflow record missing"⟩
    | some wf =>
      match findNextStep wf current_step_id with
      | none =>
        ⟨{ t with status := "completed",
                  workflow_state := { t.workflow_state with current_step := none } }, none⟩
      | some next_step_id =>
        match findNode wf next_step_id with
        | some next_node =>
          if next_node.type == "approval" then
            ⟨{ t with workflow_state := { t.workflow_state with
                current_step := some next_step_id
                pending_approvals := t.workflow_state.pending_approvals ++
                  [⟨next_node.id, next_node.label, user_id⟩]
                step_history := t.workflow_state.step_history ++
                  [⟨next_step_id, next_node.label, "pending_approval", none, none⟩] } }, none⟩
          else
            ⟨{ t with workflow_state := { t.workflow_state with
                current_step := some next_step_id
                step_history := t.workflow_state.step_history ++
                  [⟨next_step_id, next_node.label, "started", some user_id, comment⟩]
                completed_steps := t.workflow_state.completed_steps ++
                  [current_step_id] } }, none⟩
        | none =>
          ⟨{ t with workflow_state := { t.workflow_state with
              current_step := some next_step_id
              step_history := t.workflow_state.step_history ++
                [⟨next_step_id, "Unknown", "started", some user_id, comment⟩]
              completed_steps := t.workflow_state.completed_steps ++
                [current_step_id] } }, none⟩

/-- `EnterpriseWorkflowEngine.approve_step` (server.py lines 518-561).
Requires a pending approval matching `(step_id, user_id)`.  The update
pulls every pending approval with that `step_id` and pushes one history
row whose status is the `action` string.  Only `action == "approve"`
then recursively progresses the workflow; any other action (in
particular `"reject"`) leaves `current_step` and the task status alone. -/
def approve_step (store : WorkflowStore) (t : Task) (step_id user_id action : String)
    (comment : Option String) : OpOut :=
  let pending := t.workflow_state.pending_approvals
  match pending.find? (fun a => a.step_id == step_id && a.assigned_to == user_id) with
  | none => ⟨t, some "Approval not found"⟩
  | some approval =>
    let t1 : Task := { t with workflow_state := { t.workflow_state with
        pending_approvals := pending.filter (fun a => !(a.step_id == step_id))
        step_history := t.workflow_state.step_history ++
          [⟨step_id, approval.step_name, action, some user_id, comment⟩] } }
    if action == "approve" then
      progress_workflow store t1 user_id
        (some ("Approved: " ++ (comment.getD "")))
    else
      ⟨t1, none⟩

/-- `EnterpriseWorkflowEngine.rewind_workflow` (server.py lines 563-611).
Requires the target step to occur in `step_history`.  Sets `current_step`
to the target and the status to `in_progress` and appends one `rewound`
history row.  It neither snapshots into `rewind_history` nor truncates
`step_history` nor clears `pending_approvals`. -/
def rewind_workflow (t : Task) (target_step_id user_id reason : String) : OpOut :=
  match t.workflow_state.step_history.find? (fun s => s.step_id == target_step_id) with
  | none => ⟨t, some "Target step not found in history"⟩
  | some target_step =>
    ⟨{ t with status := "in_progress",
              workflow_state := { t.workflow_state with
                current_step := some target_step_id,
                step_history := t.workflow_state.step_history ++
                  [⟨target_step_id, target_step.step_name, "rewound",
                    some user_id, some reason⟩] } }, none⟩

/-- The rewind endpoint of `enterprise_endpoints.py` (lines 336-408).
Requires a non-empty `step_history` containing the target.  It backs the
full prior state up into `rewind_history`, truncates `step_history` to the
first occurrence of the target (inclusive), clears `pending_approvals`,
keeps `variables`, and sets the status to `in_progress`.  No `rewound`
history row is appended.  Its `completed_steps` filter evaluates
`s["step_id"]` on each entry, but `progress_workflow` stores plain step-id
strings there, so the subscript raises `TypeError` (before any write)
whenever `completed_steps` is non-empty; that is the last error case. -/
def rewind_endpoint (t : Task) (target_step_id user_id reason : String) : OpOut :=
  let ws := t.workflow_state
  if ws.step_history.isEmpty then
    ⟨t, some "No workflow history to rewind"⟩
  else
    match ws.step_history.findIdx? (fun s => s.step_id == target_step_id) with
    | none => ⟨t, some "Target step not found in workflow history"⟩
    | some target_index =>
      if ws.completed_steps.isEmpty then
        let backup : RewindBackup :=
          ⟨ws.core, ws.rewind_history.length, user_id, reason⟩
        let nws : WorkflowState :=
          { current_step := some target_step_id
            step_history := ws.step_history.take (target_index + 1)
            pending_approvals := []
            completed_steps := []
            vars := ws.vars
            rewind_history := ws.rewind_history ++ [backup] }
        ⟨{ t with workflow_state := nws, status := "in_progress" }, none⟩
      else
        ⟨t, some "TypeError: string indices must be integers"⟩

/-! ## Resilient node executor -/

/-- Final outcome of `execute_node_with_resilience`:
a successful attempt, the error-route return value, the suspension
exception, or the loop running out without a return (only possible for
`max_attempts = 0`, where the Python `while` body never runs and the
function falls through returning `None`). -/
inductive ExecOutcome where
  | success (attempt : Nat)
  | errorRouted (next : String) (attempt : Nat)
  | suspended (attempt : Nat)
  | fellThrough
deriving Repr, DecidableEq

/-- Trace of one executor run: the outcome, the attempt numbers executed in
order, and the waits slept between consecutive attempts. -/
structure ExecTrace where
  outcome : ExecOutcome
  attempts : List Nat
  waits : List Nat
deriving Repr, DecidableEq

/-- `max_attempts` with the source's default of 3. -/
def WorkflowNode.maxAttempts (n : WorkflowNode) : Nat :=
  match n.retry_policy with
  | some p => p.max_attempts
  | none => 3

/-- `delay_seconds` with the source's default of 60. -/
def WorkflowNode.delaySeconds (n : WorkflowNode) : Nat :=
  match n.retry_policy with
  | some p => p.delay_seconds
  | none => 60

/-- `backoff` with the source's default of true. -/
def WorkflowNode.backoffFlag (n : WorkflowNode) : Bool :=
  match n.retry_policy with
  | some p => p.backoff
  | none => true

/-- Whether attempt `k` of a node raises.  `env k = true` means the
side effect of attempt `k` (HTTP call, text-generation call) throws.
`_execute_standard_node` never throws, so only `webhook_action` and
`ai_worker` nodes can fail. -/
def attemptSucceeds (node : WorkflowNode) (env : Nat → Bool) (k : Nat) : Bool :=
  if node.type == "webhook_action" || node.type == "ai_worker" then !(env k) else true

/-- `wait_time = delay_seconds * (2 ** (attempt - 1) if backoff else 1)`
(server.py line 359). -/
def waitTime (delay_seconds : Nat) (backoff : Bool) (attempt : Nat) : Nat :=
  delay_seconds * (if backoff then 2 ^ (attempt - 1) else 1)

/-- The retry loop of `execute_node_with_resilience` (server.py lines
310-361), unrolled on the number of remaining loop iterations
(`remaining = max_attempts - attempt + 1` at every call). -/
def execGo (node : WorkflowNode) (env : Nat → Bool) (ma ds : Nat) (b : Bool) :
    Nat → Nat → ExecTrace
  | _, 0 => ⟨.fellThrough, [], []⟩
  | attempt, r + 1 =>
    if attemptSucceeds node env attempt then
      ⟨.success attempt, [attempt], []⟩
    else if ma ≤ attempt then
      match node.on_error_next_node with
      | some nxt => ⟨.errorRouted nxt attempt, [attempt], []⟩
      | none => ⟨.suspended attempt, [attempt], []⟩
    else
      let rest := execGo node env ma ds b (attempt + 1) r
      ⟨rest.outcome, attempt :: rest.attempts, waitTime ds b attempt :: rest.waits⟩

/-- `EnterpriseWorkflowEngine.execute_node_with_resilience` (server.py
lines 304-361), as the trace it produces for attempt outcomes `env`. -/
def execute_node_with_resilience (node : WorkflowNode) (env : Nat → Bool) : ExecTrace :=
  execGo node env node.maxAttempts node.delaySeconds node.backoffFlag 1 node.maxAttempts

/-- The task-record effect of one executor run: only the suspension branch
writes to the task (`status := "suspended"`, server.py lines 350-353). -/
def execute_node_task (t : Task) (node : WorkflowNode) (env : Nat → Bool) : Task × ExecTrace :=
  let tr := execute_node_with_resilience node env
  (match tr.outcome with
   | .suspended _ => { t with status := "suspended" }
   | _ => t, tr)

/-! ## Transition system over the engine operations (for the invariants) -/

/-- One engine operation, as invokable by callers of the state machine:
`start`, `progress`, `approve_step` (action `"approve"`, `"reject"` or any
other string, as the endpoint does not validate it), the engine-level
`rewind_workflow` and the enterprise rewind endpoint. -/
inductive Op where
  | start (workflow_id user : String) (initial_variables : List (String × Int))
  | progress (user : String) (comment : Option String)
  | approve (step_id user action : String) (comment : Option String)
  | rewind (target user reason : String)
  | rewindEp (target user reason : String)

/-- Apply one operation to a task record, keeping the record the store
holds afterwards (also on a raised exception, which may follow a partial
update in `approve_step`). -/
def applyOp (store : WorkflowStore) (t : Task) : Op → Task
  | .start wid u vars0 => (start_workflow store t wid u vars0).task
  | .progress u c => (progress_workflow store t u c).task
  | .approve sid u a c => (approve_step store t sid u a c).task
  | .rewind tgt u r => (rewind_workflow t tgt u r).task
  | .rewindEp tgt u r => (rewind_endpoint t tgt u r).task

/-- Task records reachable from a freshly created task by any sequence of
engine operations. -/
inductive Reachable (store : WorkflowStore) : Task → Prop where
  | init (wid : Option String) : Reachable store (mkTask wid)
  | step {t : Task} (op : Op) : Reachable store t → Reachable store (applyOp store t op)

/-- The state-machine invariant: a task is `completed` exactly when its
`current_step` is null and its workflow was ever started (non-empty
`step_history`); any task positioned on a step, or holding a pending
approval, has a non-empty history. -/
def Inv (t : Task) : Prop :=
  (t.status = "completed" ↔
    t.workflow_state.current_step = none ∧ t.workflow_state.step_history ≠ []) ∧
  (t.workflow_state.current_step ≠ none → t.workflow_state.step_history ≠ []) ∧
  (t.workflow_state.pending_approvals ≠ [] → t.workflow_state.step_history ≠ [])

/-! ## Concrete scenarios (used by witnesses and counterexamples) -/

/-- A condition-node workflow: `cond --Yes--> approve_path`,
`cond --No--> reject_path`, with `data.condition = "amount > 5000"`. -/
def wfCond : Workflow :=
  ⟨[⟨"cond", "condition", "Check amount", some "amount > 5000", none, none⟩,
    ⟨"approve_path", "task", "Approve path", none, none, none⟩,
    ⟨"reject_path", "task", "Reject path", none, none, none⟩],
   [⟨"cond", "approve_path", some "Yes"⟩, ⟨"cond", "reject_path", some "No"⟩],
   []⟩

/-- Store holding only `wfCond` under id `"wf-cond"`. -/
def storeCond : WorkflowStore :=
  fun wid => if wid == "wf-cond" then some wfCond else none

/-- A task sitting on the condition node with `variables.amount = 100`. -/
def taskAmount100 : Task :=
  ⟨"in_progress", some "wf-cond",
   ⟨some "cond", [⟨"cond", "Check amount", "started", some "u", none⟩],
    [], [], [("amount", 100)], []⟩⟩

/-- The same task with `variables.amount = 6000`. -/
def taskAmount6000 : Task :=
  ⟨"in_progress", some "wf-cond",
   ⟨some "cond", [⟨"cond", "Check amount", "started", some "u", none⟩],
    [], [], [("amount", 6000)], []⟩⟩

/-- A two-node linear workflow `n1 (task) → n2 (task)`. -/
def wfLinear : Workflow :=
  ⟨[⟨"n1", "task", "First", none, none, none⟩,
    ⟨"n2", "task", "Second", none, none, none⟩],
   [⟨"n1", "n2", none⟩], []⟩

/-- Store holding only `wfLinear` under id `"wf-lin"`. -/
def storeLinear : WorkflowStore :=
  fun wid => if wid == "wf-lin" then some wfLinear else none

/-- An approval workflow: `s (task) → gate (approval) → t2 (task)`. -/
def wfGate : Workflow :=
  ⟨[⟨"s", "task", "Submit", none, none, none⟩,
    ⟨"gate", "approval", "Gate", none, none, none⟩,
    ⟨"t2", "task", "After", none, none, none⟩],
   [⟨"s", "gate", none⟩, ⟨"gate", "t2", none⟩], []⟩

/-- Store holding only `wfGate` under id `"wf-gate"`. -/
def storeGate : WorkflowStore :=
  fun wid => if wid == "wf-gate" then some wfGate else none

/-- A task sitting on the `s` node of `wfGate`, about to hit the gate. -/
def taskBeforeGate : Task :=
  ⟨"in_progress", some "wf-gate",
   ⟨some "s", [⟨"s", "Submit", "started", some "u", none⟩], [], [], [], []⟩⟩

/-- A task waiting at the gate with two assignees for the same step. -/
def taskTwoAssignees : Task :=
  ⟨"in_progress", some "wf-gate",
   ⟨some "gate",
    [⟨"s", "Submit", "started", some "u", none⟩,
     ⟨"gate", "Gate", "pending_approval", none, none⟩],
    [⟨"gate", "Gate", "alice"⟩, ⟨"gate", "Gate", "bob"⟩], [], [], []⟩⟩

/-- A task waiting at the gate with a single pending approval for alice. -/
def taskAtGate : Task :=
  ⟨"in_progress", some "wf-gate",
   ⟨some "gate",
    [⟨"s", "Submit", "started", some "u", none⟩,
     ⟨"gate", "Gate", "pending_approval", none, none⟩],
    [⟨"gate", "Gate", "alice"⟩], [], [("x", 1)], []⟩⟩

/-- A suspended task positioned on `n1` of `wfLinear`. -/
def taskSuspended : Task :=
  ⟨"suspended", some "wf-lin",
   ⟨some "n1", [⟨"n1", "First", "started", some "u", none⟩], [], [], [], []⟩⟩

/-- A webhook node with retry policy `max_attempts = 3, delay_seconds = 10,
backoff = true` and an error route. -/
def nodeBackoff : WorkflowNode :=
  ⟨"w", "webhook_action", "Hook", none, some ⟨3, 10, true⟩, some "err-handler"⟩

/-- The same node with `backoff = false` and no error route. -/
def nodeNoBackoff : WorkflowNode :=
  ⟨"w", "webhook_action", "Hook", none, some ⟨3, 10, false⟩, none⟩

/-- An environment in which every attempt fails. -/
def envAllFail : Nat → Bool := fun _ => true

/-- A workflow with no qualifying start node: its single node is an
approval node and carries an incoming (self-loop) edge. -/
def wfNoStart : Workflow :=
  ⟨[⟨"x", "approval", "Loop gate", none, none, none⟩], [⟨"x", "x", none⟩], []⟩

/-- Store holding only `wfNoStart` under id `"wf-nostart"`. -/
def storeNoStart : WorkflowStore :=
  fun wid => if wid == "wf-nostart" then some wfNoStart else none

/-! ## Helper lemmas -/

/-- Closed form of `approve_step` for a matched approval and a non-approve
action (no recursive progress call). -/
theorem approve_step_not_approve_eq (store : WorkflowStore) (t : Task)
    (step_id user_id action : String) (comment : Option String) (a : PendingApproval)
    (hfind : t.workflow_state.pending_approvals.find?
        (fun x => x.step_id == step_id && x.assigned_to == user_id) = some a)
    (hact : (action == "approve") = false) :
    approve_step store t step_id user_id action comment =
      ⟨{ t with workflow_state := { t.workflow_state with
          pending_approvals :=
            t.workflow_state.pending_approvals.filter (fun x => !(x.step_id == step_id)),
          step_history := t.workflow_state.step_history ++
            [⟨step_id, a.step_name, action, some user_id, comment⟩] } }, none⟩ := by
  simp only [approve_step, hfind, hact]
  simp

/-- `List.find?` returns the first element satisfying the test. -/
theorem find?_first {α : Type} (p : α → Bool) :
    ∀ (pre : List α) (n : α) (post : List α),
      (∀ m ∈ pre, p m = false) → p n = true →
      (pre ++ n :: post).find? p = some n := by
  intro pre n post hpre hn
  induction pre with
  | nil => simp [List.find?, hn]
  | cons a as ih =>
    have ha : p a = false := hpre a (by simp)
    simp only [List.cons_append, List.find?, ha]
    exact ih (fun m hm => hpre m (by simp [hm]))

/-- The attempts of an executor run are the consecutive numbers starting at
the initial attempt, there are at most `remaining` of them, and the waits
slept are `waitTime` of the attempt preceding each wait. -/
theorem execGo_trace (node : WorkflowNode) (env : Nat → Bool) (ma ds : Nat) (b : Bool) :
    ∀ (r a : Nat),
      (execGo node env ma ds b a r).attempts.length ≤ r ∧
      (execGo node env ma ds b a r).attempts
        = List.range' a (execGo node env ma ds b a r).attempts.length ∧
      (execGo node env ma ds b a r).waits
        = (List.range' a (execGo node env ma ds b a r).waits.length).map
            (waitTime ds b) := by
  intro r
  induction r with
  | zero => intro a; simp [execGo]
  | succ r ih =>
    intro a
    by_cases hs : attemptSucceeds node env a = true
    · simp [execGo, hs]
    · simp only [Bool.not_eq_true] at hs
      by_cases hma : ma ≤ a
      · cases hoe : node.on_error_next_node with
        | some nxt => simp [execGo, hs, hma, hoe]
        | none => simp [execGo, hs, hma, hoe]
      · have hrest := ih (a + 1)
        simp only [execGo, hs, Bool.false_eq_true, if_false, hma, if_neg hma]
        refine ⟨by simpa using Nat.succ_le_succ hrest.1, ?_, ?_⟩
        · simp only [List.length_cons, List.range'_succ]
          exact congrArg (a :: ·) hrest.2.1
        · simp only [List.length_cons, List.range'_succ, List.map_cons]
          exact congrArg (waitTime ds b a :: ·) hrest.2.2

/-- When every attempt fails, the executor loop terminates at attempt
`max_attempts` with the error-route outcome when `on_error_next_node` is
set and the suspension outcome otherwise. -/
theorem execGo_exhaust (node : WorkflowNode) (env : Nat → Bool) (ma ds : Nat) (b : Bool)
    (hfail : ∀ k, attemptSucceeds node env k = false) :
    ∀ (r a : Nat), a + r = ma + 1 → 1 ≤ r →
      (execGo node env ma ds b a r).outcome =
        (match node.on_error_next_node with
         | some nxt => ExecOutcome.errorRouted nxt ma
         | none => ExecOutcome.suspended ma) := by
  intro r
  induction r with
  | zero => intro a _ h1; omega
  | succ r ih =>
    intro a hsum _
    by_cases hr : r = 0
    · subst hr
      have ha : a = ma := by omega
      subst ha
      cases hoe : node.on_error_next_node with
      | some nxt => simp [execGo, hfail, hoe]
      | none => simp [execGo, hfail, hoe]
    · have hma : ¬ ma ≤ a := by omega
      have hrec := ih (a + 1) (by omega) (by omega)
      simp only [execGo, hfail a, Bool.false_eq_true, if_false, if_neg hma]
      exact hrec

/-! ## C1: condition routing -/

/-- C1 counterexample.  The spec claims a task with `variables.amount = 100`
follows the `"No"` edge out of the condition node.  In the code,
`progress_workflow` takes the first outgoing edge unconditionally: the task
lands on `"approve_path"`, the `"Yes"` target, not on `"reject_path"`. -/
theorem C1_counterexample :
    (progress_workflow storeCond taskAmount100 "u" none).task.workflow_state.current_step
      = some "approve_path" ∧
    wfCond.edges = [⟨"cond", "approve_path", some "Yes"⟩,
                    ⟨"cond", "reject_path", some "No"⟩] ∧
    "approve_path" ≠ "reject_path" := by
  refine ⟨rfl, rfl, by decide⟩

/-- C1 (amended): progressing a task follows the target of the first edge
leaving the current step, in definition order, whatever the task's
variables, the edge labels or any node's `data.condition` are; condition
nodes receive no special routing. -/
theorem C1_first_edge_routing (store : WorkflowStore) (t : Task) (u : String)
    (c : Option String) (cur wid : String) (wf : Workflow) (e : Edge)
    (hcur : t.workflow_state.current_step = some cur)
    (hwid : t.workflow_id = some wid)
    (hstore : store wid = some wf)
    (hedge : wf.edges.find? (fun e0 => e0.source == cur) = some e) :
    (progress_workflow store t u c).task.workflow_state.current_step = some e.target := by
  unfold progress_workflow
  rw [hcur, hwid]
  simp only [Option.bind, hstore]
  unfold findNextStep
  rw [hedge]
  simp only [Option.map_some']
  cases hn : findNode wf e.target with
  | none => simp
  | some nn =>
    by_cases h : nn.type == "approval" <;> simp [h]

/-- C1 witness: the amended routing at the concrete condition workflow,
with both `amount = 6000` and `amount = 100` ending on the first edge's
target. -/
theorem C1_first_edge_routing_witness :
    (progress_workflow storeCond taskAmount6000 "u" none).task.workflow_state.current_step
      = some "approve_path" ∧
    (progress_workflow storeCond taskAmount100 "u" none).task.workflow_state.current_step
      = some "approve_path" :=
  ⟨C1_first_edge_routing storeCond taskAmount6000 "u" none "cond" "wf-cond" wfCond
      ⟨"cond", "approve_path", some "Yes"⟩ rfl rfl rfl rfl,
   C1_first_edge_routing storeCond taskAmount100 "u" none "cond" "wf-cond" wfCond
      ⟨"cond", "approve_path", some "Yes"⟩ rfl rfl rfl rfl⟩

/-! ## C2: rejection semantics -/

/-- C2 counterexample.  The spec claims rejecting sets `current_step = null`
and `status = on_hold`.  Rejecting alice's pending approval leaves the
task `in_progress` with `current_step` still on the gate. -/
theorem C2_counterexample :
    (approve_step storeGate taskAtGate "gate" "alice" "reject" none).task.status
      = "in_progress" ∧
    (approve_step storeGate taskAtGate "gate" "alice" "reject" none).task.workflow_state.current_step
      = some "gate" ∧
    "in_progress" ≠ "on_hold" := by
  refine ⟨rfl, rfl, by decide⟩

/-- C2 (amended): rejecting a matched pending approval removes its
`pending_approvals` entries and appends one history row with status
`"reject"`, but leaves `current_step` and the task's status unchanged
(the workflow stays parked on the approval step; no `on_hold`, no `null`
`current_step`, and the workflow does not advance). -/
theorem C2_reject_behavior (store : WorkflowStore) (t : Task)
    (step_id user_id : String) (comment : Option String) (a : PendingApproval)
    (hfind : t.workflow_state.pending_approvals.find?
        (fun x => x.step_id == step_id && x.assigned_to == user_id) = some a) :
    (approve_step store t step_id user_id "reject" comment).error = none ∧
    (approve_step store t step_id user_id "reject" comment).task.status = t.status ∧
    (approve_step store t step_id user_id "reject" comment).task.workflow_state.current_step
      = t.workflow_state.current_step ∧
    (approve_step store t step_id user_id "reject" comment).task.workflow_state.pending_approvals
      = t.workflow_state.pending_approvals.filter (fun x => !(x.step_id == step_id)) ∧
    (approve_step store t step_id user_id "reject" comment).task.workflow_state.step_history
      = t.workflow_state.step_history ++
        [⟨step_id, a.step_name, "reject", some user_id, comment⟩] := by
  rw [approve_step_not_approve_eq store t step_id user_id "reject" comment a hfind rfl]
  simp

/-- C2 witness: the amended rejection behaviour at the concrete gate task. -/
theorem C2_reject_behavior_witness :
    (approve_step storeGate taskAtGate "gate" "alice" "reject" none).error = none ∧
    (approve_step storeGate taskAtGate "gate" "alice" "reject" none).task.status
      = taskAtGate.status ∧
    (approve_step storeGate taskAtGate "gate" "alice" "reject" none).task.workflow_state.current_step
      = taskAtGate.workflow_state.current_step ∧
    (approve_step storeGate taskAtGate "gate" "alice" "reject" none).task.workflow_state.pending_approvals
      = taskAtGate.workflow_state.pending_approvals.filter (fun x => !(x.step_id == "gate")) ∧
    (approve_step storeGate taskAtGate "gate" "alice" "reject" none).task.workflow_state.step_history
      = taskAtGate.workflow_state.step_history ++
        [⟨"gate", "Gate", "reject", some "alice", none⟩] :=
  C2_reject_behavior storeGate taskAtGate "gate" "alice" none ⟨"gate", "Gate", "alice"⟩ rfl

/-! ## C10: multi-assignee approval removal -/

/-- C10 counterexample.  With two pending entries for step `"gate"`
(assigned to alice and bob), alice's `approve` removes both entries but the
step history grows by two rows (the `approve` row plus the `started` row
pushed by the recursive progress), not by one. -/
theorem C10_counterexample :
    (approve_step storeGate taskTwoAssignees "gate" "alice" "approve" none).task.workflow_state.pending_approvals
      = [] ∧
    taskTwoAssignees.workflow_state.step_history.length = 2 ∧
    (approve_step storeGate taskTwoAssignees "gate" "alice" "approve" none).task.workflow_state.step_history.length
      = 4 ∧
    (4 : Nat) ≠ 2 + 1 := by
  refine ⟨rfl, rfl, rfl, by decide⟩

/-- C10 (amended): a successful `approve_step` pulls every
`pending_approvals` entry carrying the matched `step_id` — including
entries assigned to actors other than the caller.  The approval
resolution itself appends exactly one history row (so a `reject` call
appends exactly one row in total); an `approve` call then recursively
invokes progress, which may append a further row. -/
theorem C10_pull_all_assignees (store : WorkflowStore) (t : Task)
    (step_id user_id : String) (comment : Option String) (a : PendingApproval)
    (hfind : t.workflow_state.pending_approvals.find?
        (fun x => x.step_id == step_id && x.assigned_to == user_id) = some a) :
    (approve_step store t step_id user_id "reject" comment).task.workflow_state.pending_approvals
      = t.workflow_state.pending_approvals.filter (fun x => !(x.step_id == step_id)) ∧
    (∀ p ∈ (approve_step store t step_id user_id "reject" comment).task.workflow_state.pending_approvals,
        p.step_id ≠ step_id) ∧
    (approve_step store t step_id user_id "reject" comment).task.workflow_state.step_history.length
      = t.workflow_state.step_history.length + 1 := by
  rw [approve_step_not_approve_eq store t step_id user_id "reject" comment a hfind rfl]
  refine ⟨by simp, ?_, by simp⟩
  intro p hp
  simp only [List.mem_filter] at hp
  intro hcontra
  have h2 := hp.2
  rw [hcontra] at h2
  simp at h2

/-- C10 witness: bob's entry is pulled by alice's rejection as well, and
exactly one history row is appended. -/
theorem C10_pull_all_assignees_witness :
    (approve_step storeGate taskTwoAssignees "gate" "alice" "reject" none).task.workflow_state.pending_approvals
      = taskTwoAssignees.workflow_state.pending_approvals.filter (fun x => !(x.step_id == "gate")) ∧
    (∀ p ∈ (approve_step storeGate taskTwoAssignees "gate" "alice" "reject" none).task.workflow_state.pending_approvals,
        p.step_id ≠ "gate") ∧
    (approve_step storeGate taskTwoAssignees "gate" "alice" "reject" none).task.workflow_state.step_history.length
      = taskTwoAssignees.workflow_state.step_history.length + 1 :=
  C10_pull_all_assignees storeGate taskTwoAssignees "gate" "alice" none
    ⟨"gate", "Gate", "alice"⟩ rfl

/-! ## C5: retry schedule -/

/-- C5: with retry policy `max_attempts = m, delay_seconds = d, backoff = b`
the executor makes at most `m` attempts, numbered consecutively from 1, and
the wait between attempt `k` and attempt `k + 1` is `d * 2 ^ (k - 1)` when
backoff is on and `d` when it is off (so for `m = 3, d = 10` the waits are
10 then 20 with backoff, and 10 twice without). -/
theorem C5_retry_schedule (node : WorkflowNode) (env : Nat → Bool) (m d : Nat) (b : Bool)
    (hpol : node.retry_policy = some ⟨m, d, b⟩) :
    (execute_node_with_resilience node env).attempts.length ≤ m ∧
    (execute_node_with_resilience node env).attempts
      = List.range' 1 (execute_node_with_resilience node env).attempts.length ∧
    (execute_node_with_resilience node env).waits
      = (List.range' 1 (execute_node_with_resilience node env).waits.length).map
          (fun k => if b then d * 2 ^ (k - 1) else d) := by
  have hma : node.maxAttempts = m := by simp [WorkflowNode.maxAttempts, hpol]
  have hds : node.delaySeconds = d := by simp [WorkflowNode.delaySeconds, hpol]
  have hb : node.backoffFlag = b := by simp [WorkflowNode.backoffFlag, hpol]
  have hfun : (fun k => if b then d * 2 ^ (k - 1) else d) = waitTime d b := by
    funext k
    cases b <;> simp [waitTime]
  rw [hfun]
  have h := execGo_trace node env m d b m 1
  simpa [execute_node_with_resilience, hma, hds, hb] using h

/-- C5 witness: the schedule at `max_attempts = 3, delay_seconds = 10` with
every attempt failing — `[10, 20]` with backoff, `[10, 10]` without. -/
theorem C5_retry_schedule_witness :
    nodeBackoff.retry_policy = some ⟨3, 10, true⟩ ∧
    (execute_node_with_resilience nodeBackoff envAllFail).waits = [10, 20] ∧
    (execute_node_with_resilience nodeNoBackoff envAllFail).waits = [10, 10] ∧
    ((execute_node_with_resilience nodeBackoff envAllFail).attempts.length ≤ 3 ∧
     (execute_node_with_resilience nodeBackoff envAllFail).attempts
       = List.range' 1 (execute_node_with_resilience nodeBackoff envAllFail).attempts.length ∧
     (execute_node_with_resilience nodeBackoff envAllFail).waits
       = (List.range' 1 (execute_node_with_resilience nodeBackoff envAllFail).waits.length).map
           (fun k => if true then 10 * 2 ^ (k - 1) else 10)) :=
  ⟨rfl, rfl, rfl, C5_retry_schedule nodeBackoff envAllFail 3 10 true rfl⟩

/-! ## C4: exhaustion, error routing and suspension -/

/-- C4 counterexample.  The spec claims that after a suspension no further
`progress` call succeeds until the task is resumed.  `progress_workflow`
never reads the task status: called on a task whose status is
`"suspended"` it succeeds (no error) and advances the workflow. -/
theorem C4_counterexample :
    taskSuspended.status = "suspended" ∧
    (progress_workflow storeLinear taskSuspended "u" none).error = none ∧
    (progress_workflow storeLinear taskSuspended "u" none).task.workflow_state.current_step
      = some "n2" := by
  refine ⟨rfl, rfl, rfl⟩

/-- C4 (amended): when every attempt fails and the attempts are exhausted,
the executor ends at attempt `max_attempts` with the `ErrorRouted` outcome
when `on_error_next_node` is set — in which case the task record is
untouched, in particular never marked suspended — and with the `Suspended`
outcome and the task status set to `"suspended"` otherwise.  However,
`progress_workflow` never consults the task status: a later `progress`
call on a suspended task whose `current_step` is non-null (and whose
workflow resolves) succeeds rather than failing. -/
theorem C4_exhaustion_routing (store : WorkflowStore) (node : WorkflowNode)
    (env : Nat → Bool) (t u : Task) (m : Nat) (uid : String) (c : Option String)
    (cur wid : String) (wf : Workflow)
    (hm : node.maxAttempts = m) (h1 : 1 ≤ m)
    (hfail : ∀ k, attemptSucceeds node env k = false)
    (_hsus : u.status = "suspended")
    (hcur : u.workflow_state.current_step = some cur)
    (hwid : u.workflow_id = some wid)
    (hstore : store wid = some wf) :
    ((execute_node_task t node env).2.outcome =
      (match node.on_error_next_node with
       | some nxt => ExecOutcome.errorRouted nxt m
       | none => ExecOutcome.suspended m)) ∧
    (node.on_error_next_node ≠ none → (execute_node_task t node env).1 = t) ∧
    (node.on_error_next_node = none → (execute_node_task t node env).1.status = "suspended") ∧
    (progress_workflow store u uid c).error = none := by
  have hout : (execute_node_with_resilience node env).outcome =
      (match node.on_error_next_node with
       | some nxt => ExecOutcome.errorRouted nxt m
       | none => ExecOutcome.suspended m) := by
    have h := execGo_exhaust node env m node.delaySeconds node.backoffFlag hfail m 1
      (by omega) h1
    simpa [execute_node_with_resilience, hm] using h
  refine ⟨?_, ?_, ?_, ?_⟩
  · simpa [execute_node_task] using hout
  · intro hne
    cases hoe : node.on_error_next_node with
    | none => exact absurd hoe hne
    | some nxt =>
      rw [hoe] at hout
      simp [execute_node_task, hout]
  · intro hoe
    rw [hoe] at hout
    simp [execute_node_task, hout]
  · simp only [progress_workflow, hcur, hwid, Option.bind, hstore]
    cases hn : findNextStep wf cur with
    | none => simp [hn]
    | some nid =>
      cases hnd : findNode wf nid with
      | none => simp [hn, hnd]
      | some nn => by_cases h : nn.type == "approval" <;> simp [hn, hnd, h]

/-- C4 witness: the amended behaviour at the concrete webhook nodes and the
concrete suspended task. -/
theorem C4_exhaustion_routing_witness :
    ((execute_node_task (mkTask none) nodeBackoff envAllFail).2.outcome =
      (match nodeBackoff.on_error_next_node with
       | some nxt => ExecOutcome.errorRouted nxt 3
       | none => ExecOutcome.suspended 3)) ∧
    (nodeBackoff.on_error_next_node ≠ none →
      (execute_node_task (mkTask none) nodeBackoff envAllFail).1 = mkTask none) ∧
    (nodeBackoff.on_error_next_node = none →
      (execute_node_task (mkTask none) nodeBackoff envAllFail).1.status = "suspended") ∧
    (progress_workflow storeLinear taskSuspended "u" none).error = none :=
  C4_exhaustion_routing storeLinear nodeBackoff envAllFail (mkTask none) taskSuspended
    3 "u" none "n1" "wf-lin" wfLinear rfl (by decide) (fun _ => rfl) rfl rfl rfl rfl

/-! ## C3: rewind semantics -/

/-- C3 counterexample.  The spec claims post-rewind `step_history` is the
prefix up to the target **plus one new `rewound` entry**.  Rewinding the
gate task to `"s"` leaves `step_history = [the "s" started row]` — exactly
the prefix, length 1, with no `rewound` row appended (the claimed shape
would have length 2 and a final `rewound` row). -/
theorem C3_counterexample :
    (rewind_endpoint taskAtGate "s" "admin" "wrong path").task.workflow_state.step_history
      = [⟨"s", "Submit", "started", some "u", none⟩] ∧
    (rewind_endpoint taskAtGate "s" "admin" "wrong path").task.workflow_state.step_history.length
      = 1 ∧
    "started" ≠ "rewound" := by
  refine ⟨rfl, rfl, by decide⟩

/-- C3 (amended): a successful call of the enterprise rewind endpoint (its
success requires the target in `step_history` and — because the endpoint
subscripts completed-step entries as mappings while the engine stores
plain step-id strings — an empty `completed_steps`) appends exactly one
snapshot of the prior `workflow_state` to `rewind_history` (its length
grows by exactly one), sets `current_step` to the target and the status to
`in_progress`, clears `pending_approvals`, preserves `variables`, and
leaves `step_history` equal to the prefix of its pre-rewind value up to
and including the first occurrence of the target step, with **no**
`rewound` entry appended.  (The engine-level `rewind_workflow`, by
contrast, appends a `rewound` row but neither snapshots nor truncates nor
clears approvals.) -/
theorem C3_rewind_endpoint_behavior (t : Task) (target user reason : String) (i : Nat)
    (hidx : t.workflow_state.step_history.findIdx? (fun s => s.step_id == target) = some i)
    (hcs : t.workflow_state.completed_steps = []) :
    (rewind_endpoint t target user reason).error = none ∧
    (rewind_endpoint t target user reason).task.workflow_state.rewind_history
      = t.workflow_state.rewind_history ++
        [⟨t.workflow_state.core, t.workflow_state.rewind_history.length, user, reason⟩] ∧
    (rewind_endpoint t target user reason).task.workflow_state.rewind_history.length
      = t.workflow_state.rewind_history.length + 1 ∧
    (rewind_endpoint t target user reason).task.workflow_state.current_step = some target ∧
    (rewind_endpoint t target user reason).task.status = "in_progress" ∧
    (rewind_endpoint t target user reason).task.workflow_state.pending_approvals = [] ∧
    (rewind_endpoint t target user reason).task.workflow_state.vars = t.workflow_state.vars ∧
    (rewind_endpoint t target user reason).task.workflow_state.step_history
      = t.workflow_state.step_history.take (i + 1) := by
  have hne : t.workflow_state.step_history ≠ [] := by
    intro h
    rw [h] at hidx
    simp [List.findIdx?] at hidx
  have hemp : t.workflow_state.step_history.isEmpty = false := by
    cases h : t.workflow_state.step_history with
    | nil => exact absurd h hne
    | cons a l => simp [h]
  simp [rewind_endpoint, hemp, hidx, hcs]

/-- C3 witness: the amended rewind behaviour at the concrete gate task. -/
theorem C3_rewind_endpoint_behavior_witness :
    (rewind_endpoint taskAtGate "s" "admin" "wrong path").error = none ∧
    (rewind_endpoint taskAtGate "s" "admin" "wrong path").task.workflow_state.rewind_history
      = taskAtGate.workflow_state.rewind_history ++
        [⟨taskAtGate.workflow_state.core,
          taskAtGate.workflow_state.rewind_history.length, "admin", "wrong path"⟩] ∧
    (rewind_endpoint taskAtGate "s" "admin" "wrong path").task.workflow_state.rewind_history.length
      = taskAtGate.workflow_state.rewind_history.length + 1 ∧
    (rewind_endpoint taskAtGate "s" "admin" "wrong path").task.workflow_state.current_step
      = some "s" ∧
    (rewind_endpoint taskAtGate "s" "admin" "wrong path").task.status = "in_progress" ∧
    (rewind_endpoint taskAtGate "s" "admin" "wrong path").task.workflow_state.pending_approvals
      = [] ∧
    (rewind_endpoint taskAtGate "s" "admin" "wrong path").task.workflow_state.vars
      = taskAtGate.workflow_state.vars ∧
    (rewind_endpoint taskAtGate "s" "admin" "wrong path").task.workflow_state.step_history
      = taskAtGate.workflow_state.step_history.take (0 + 1) :=
  C3_rewind_endpoint_behavior taskAtGate "s" "admin" "wrong path" 0 rfl rfl

/-! ## C6: progress onto an approval node -/

/-- C6: when the next node (the target of the first outgoing edge) has type
`approval`, progress records exactly one new `pending_approvals` entry for
that node assigned to the acting actor, appends exactly one
`pending_approval` history row, and sets `current_step` to the approval
node itself instead of advancing past it; the task status is untouched. -/
theorem C6_progress_onto_approval (store : WorkflowStore) (t : Task) (u : String)
    (c : Option String) (cur wid nid : String) (wf : Workflow) (nn : WorkflowNode)
    (hcur : t.workflow_state.current_step = some cur)
    (hwid : t.workflow_id = some wid)
    (hstore : store wid = some wf)
    (hnext : findNextStep wf cur = some nid)
    (hnode : findNode wf nid = some nn)
    (htype : nn.type = "approval") :
    (progress_workflow store t u c).error = none ∧
    (progress_workflow store t u c).task.workflow_state.pending_approvals
      = t.workflow_state.pending_approvals ++ [⟨nn.id, nn.label, u⟩] ∧
    (progress_workflow store t u c).task.workflow_state.step_history
      = t.workflow_state.step_history ++
        [⟨nid, nn.label, "pending_approval", none, none⟩] ∧
    (progress_workflow store t u c).task.workflow_state.current_step = some nid ∧
    (progress_workflow store t u c).task.status = t.status := by
  simp [progress_workflow, hcur, Option.bind, hwid, hstore, hnext, hnode, htype]

/-- C6 witness: progress from the `s` node of the gate workflow onto the
approval gate. -/
theorem C6_progress_onto_approval_witness :
    (progress_workflow storeGate taskBeforeGate "alice" none).error = none ∧
    (progress_workflow storeGate taskBeforeGate "alice" none).task.workflow_state.pending_approvals
      = taskBeforeGate.workflow_state.pending_approvals ++ [⟨"gate", "Gate", "alice"⟩] ∧
    (progress_workflow storeGate taskBeforeGate "alice" none).task.workflow_state.step_history
      = taskBeforeGate.workflow_state.step_history ++
        [⟨"gate", "Gate", "pending_approval", none, none⟩] ∧
    (progress_workflow storeGate taskBeforeGate "alice" none).task.workflow_state.current_step
      = some "gate" ∧
    (progress_workflow storeGate taskBeforeGate "alice" none).task.status
      = taskBeforeGate.status :=
  C6_progress_onto_approval storeGate taskBeforeGate "alice" none "s" "wf-gate" "gate"
    wfGate ⟨"gate", "approval", "Gate", none, none, none⟩ rfl rfl rfl rfl rfl rfl

/-! ## C7: the 2-node linear scenario -/

/-- C7 counterexample.  The spec claims `start` plus a single `progress`
call completes the 2-node `task → task` workflow.  After one progress the
task is still `in_progress`, sitting on the second node. -/
theorem C7_counterexample :
    (progress_workflow storeLinear
        (start_workflow storeLinear (mkTask none) "wf-lin" "u" []).task "u" none).task.status
      = "in_progress" ∧
    (progress_workflow storeLinear
        (start_workflow storeLinear (mkTask none) "wf-lin" "u" []).task "u" none).task.workflow_state.current_step
      = some "n2" ∧
    "in_progress" ≠ "completed" := by
  refine ⟨rfl, rfl, by decide⟩

/-- C7 (amended): on a 2-node linear `task → task` workflow, `start`
followed by **one** `progress` leaves the task `in_progress` on the second
node with two `step_history` entries; a **second** `progress` call then
completes it: `status = completed`, `current_step = null`, and still
exactly two `step_history` entries (completion appends no row). -/
theorem C7_two_node_linear (store : WorkflowStore) (t0 : Task)
    (wid u1 u2 u3 : String) (v : List (String × Int)) (c1 c2 : Option String)
    (wf : Workflow) (a b : WorkflowNode) (lbl : Option String)
    (hwf : store wid = some wf)
    (hnodes : wf.nodes = [a, b])
    (hedges : wf.edges = [⟨a.id, b.id, lbl⟩])
    (hta : a.type = "task") (htb : b.type = "task")
    (hne : a.id ≠ b.id) :
    (start_workflow store t0 wid u1 v).error = none ∧
    (progress_workflow store (start_workflow store t0 wid u1 v).task u2 c1).error = none ∧
    (progress_workflow store (start_workflow store t0 wid u1 v).task u2 c1).task.status
      = "in_progress" ∧
    (progress_workflow store (start_workflow store t0 wid u1 v).task u2 c1).task.workflow_state.current_step
      = some b.id ∧
    (progress_workflow store (start_workflow store t0 wid u1 v).task u2 c1).task.workflow_state.step_history.length
      = 2 ∧
    (progress_workflow store
        (progress_workflow store (start_workflow store t0 wid u1 v).task u2 c1).task
        u3 c2).error = none ∧
    (progress_workflow store
        (progress_workflow store (start_workflow store t0 wid u1 v).task u2 c1).task
        u3 c2).task.status = "completed" ∧
    (progress_workflow store
        (progress_workflow store (start_workflow store t0 wid u1 v).task u2 c1).task
        u3 c2).task.workflow_state.current_step = none ∧
    (progress_workflow store
        (progress_workflow store (start_workflow store t0 wid u1 v).task u2 c1).task
        u3 c2).task.workflow_state.step_history.length = 2 := by
  have habeq : (a.id == b.id) = false := by
    simp [hne]
  have hq : startQualifies wf a = true := by
    simp [startQualifies, hta]
  have hf : findFirstNode wf = some a := by
    simp [findFirstNode, hnodes, List.find?, hq]
  have e1 : start_workflow store t0 wid u1 v =
      ⟨⟨"in_progress", some wid,
        ⟨some a.id, [⟨a.id, a.label, "started", some u1, none⟩], [], [],
         mergeVars wf.vars v, []⟩⟩, none⟩ := by
    simp [start_workflow, hwf, hf]
  have hnext1 : findNextStep wf a.id = some b.id := by
    simp [findNextStep, hedges, List.find?]
  have hnode2 : findNode wf b.id = some b := by
    simp [findNode, hnodes, List.find?, habeq]
  have hnext2 : findNextStep wf b.id = none := by
    simp [findNextStep, hedges, List.find?, habeq]
  have htb' : (b.type == "approval") = false := by
    simp [htb]
  have e2 : progress_workflow store (start_workflow store t0 wid u1 v).task u2 c1 =
      ⟨⟨"in_progress", some wid,
        ⟨some b.id,
         [⟨a.id, a.label, "started", some u1, none⟩,
          ⟨b.id, b.label, "started", some u2, c1⟩], [], [a.id],
         mergeVars wf.vars v, []⟩⟩, none⟩ := by
    rw [e1]
    simp [progress_workflow, hwf, hnext1, hnode2, htb']
  have e3 : progress_workflow store
      (progress_workflow store (start_workflow store t0 wid u1 v).task u2 c1).task u3 c2 =
      ⟨⟨"completed", some wid,
        ⟨none,
         [⟨a.id, a.label, "started", some u1, none⟩,
          ⟨b.id, b.label, "started", some u2, c1⟩], [], [a.id],
         mergeVars wf.vars v, []⟩⟩, none⟩ := by
    rw [e2]
    simp [progress_workflow, hwf, hnext2]
  rw [e3, e2, e1]
  simp

/-- C7 witness: the amended two-step completion at the concrete linear
workflow. -/
theorem C7_two_node_linear_witness :
    (start_workflow storeLinear (mkTask none) "wf-lin" "u" []).error = none ∧
    (progress_workflow storeLinear
        (start_workflow storeLinear (mkTask none) "wf-lin" "u" []).task "u" none).error = none ∧
    (progress_workflow storeLinear
        (start_workflow storeLinear (mkTask none) "wf-lin" "u" []).task "u" none).task.status
      = "in_progress" ∧
    (progress_workflow storeLinear
        (start_workflow storeLinear (mkTask none) "wf-lin" "u" []).task "u" none).task.workflow_state.current_step
      = some ("n2" : String) ∧
    (progress_workflow storeLinear
        (start_workflow storeLinear (mkTask none) "wf-lin" "u" []).task "u" none).task.workflow_state.step_history.length
      = 2 ∧
    (progress_workflow storeLinear
        (progress_workflow storeLinear
          (start_workflow storeLinear (mkTask none) "wf-lin" "u" []).task "u" none).task
        "u" none).error = none ∧
    (progress_workflow storeLinear
        (progress_workflow storeLinear
          (start_workflow storeLinear (mkTask none) "wf-lin" "u" []).task "u" none).task
        "u" none).task.status = "completed" ∧
    (progress_workflow storeLinear
        (progress_workflow storeLinear
          (start_workflow storeLinear (mkTask none) "wf-lin" "u" []).task "u" none).task
        "u" none).task.workflow_state.current_step = none ∧
    (progress_workflow storeLinear
        (progress_workflow storeLinear
          (start_workflow storeLinear (mkTask none) "wf-lin" "u" []).task "u" none).task
        "u" none).task.workflow_state.step_history.length = 2 :=
  C7_two_node_linear storeLinear (mkTask none) "wf-lin" "u" "u" "u" [] none none
    wfLinear ⟨"n1", "task", "First", none, none, none⟩
    ⟨"n2", "task", "Second", none, none, none⟩ none rfl rfl rfl rfl rfl (by decide)

/-! ## C8: start-node selection -/

/-- C8: `start` selects as start node the first node in definition order
that has no incoming edge or has type `task` (that is exactly
`startQualifies`, and `find?` picks the first qualifier); if no node
qualifies — in particular when the definition has no nodes — starting
fails with the invalid-definition error and the task record, hence its
`workflow_state`, is left untouched.  When a node qualifies, the state is
initialized on it with a single `started` history row. -/
theorem C8_start_node_selection (store : WorkflowStore) (t : Task) (wid u : String)
    (v : List (String × Int)) (wf : Workflow)
    (hstore : store wid = some wf) :
    (wf.nodes.find? (startQualifies wf) = none →
      start_workflow store t wid u v = ⟨t, some "Workflow has no starting node"⟩) ∧
    (∀ n, wf.nodes.find? (startQualifies wf) = some n →
      (start_workflow store t wid u v).error = none ∧
      (start_workflow store t wid u v).task.workflow_state.current_step = some n.id ∧
      (start_workflow store t wid u v).task.status = "in_progress" ∧
      (start_workflow store t wid u v).task.workflow_state.step_history
        = [⟨n.id, n.label, "started", some u, none⟩]) ∧
    (∀ pre n post, wf.nodes = pre ++ n :: post →
      (∀ x ∈ pre, startQualifies wf x = false) → startQualifies wf n = true →
      wf.nodes.find? (startQualifies wf) = some n) := by
  refine ⟨?_, ?_, ?_⟩
  · intro h
    simp [start_workflow, hstore, findFirstNode, h]
  · intro n h
    simp [start_workflow, hstore, findFirstNode, h]
  · intro pre n post hdecomp hpre hn
    rw [hdecomp]
    exact find?_first (startQualifies wf) pre n post hpre hn

/-- C8 witness: on the gate workflow the first node (type `task`) is
selected and the state initialized on it; on the no-start workflow
(single approval node with an incoming edge) starting fails and returns
the task unchanged. -/
theorem C8_start_node_selection_witness :
    ((start_workflow storeGate (mkTask none) "wf-gate" "u" []).error = none ∧
     (start_workflow storeGate (mkTask none) "wf-gate" "u" []).task.workflow_state.current_step
       = some "s" ∧
     (start_workflow storeGate (mkTask none) "wf-gate" "u" []).task.status = "in_progress" ∧
     (start_workflow storeGate (mkTask none) "wf-gate" "u" []).task.workflow_state.step_history
       = [⟨"s", "Submit", "started", some "u", none⟩]) ∧
    start_workflow storeNoStart (mkTask none) "wf-nostart" "u" []
      = ⟨mkTask none, some "Workflow has no starting node"⟩ :=
  ⟨(C8_start_node_selection storeGate (mkTask none) "wf-gate" "u" [] wfGate rfl).2.1
      ⟨"s", "task", "Submit", none, none, none⟩ rfl,
   (C8_start_node_selection storeNoStart (mkTask none) "wf-nostart" "u" [] wfNoStart rfl).1 rfl⟩

/-! ## C9: the completed-iff invariant -/

/-- The invariant survives replacing the pending approvals and appending a
history row while leaving status and current step alone (the shape of the
`approve_step` resolution update). -/
theorem inv_update_pending_hist (t : Task) (row : HistoryEntry)
    (newPending : List PendingApproval) (h : Inv t)
    (hh : t.workflow_state.step_history ≠ []) :
    Inv { t with workflow_state := { t.workflow_state with
        pending_approvals := newPending,
        step_history := t.workflow_state.step_history ++ [row] } } := by
  obtain ⟨hiff, _, _⟩ := h
  refine ⟨?_, ?_, ?_⟩
  · constructor
    · intro hcomp
      exact ⟨(hiff.mp hcomp).1, by simp⟩
    · rintro ⟨hnone, _⟩
      exact hiff.mpr ⟨hnone, hh⟩
  · intro _
    simp
  · intro _
    simp

/-- `start_workflow` preserves the invariant. -/
theorem inv_start (store : WorkflowStore) (t : Task) (wid u : String)
    (v : List (String × Int)) (h : Inv t) :
    Inv (start_workflow store t wid u v).task := by
  unfold start_workflow
  cases hs : store wid with
  | none => simpa [hs] using h
  | some wf =>
    cases hf : findFirstNode wf with
    | none => simpa [hs, hf] using h
    | some n => simp [hs, hf, Inv]

/-- `progress_workflow` preserves the invariant. -/
theorem inv_progress (store : WorkflowStore) (t : Task) (u : String)
    (c : Option String) (h : Inv t) :
    Inv (progress_workflow store t u c).task := by
  unfold progress_workflow
  cases hc : t.workflow_state.current_step with
  | none => simpa [hc] using h
  | some cur =>
    have hhist : t.workflow_state.step_history ≠ [] := h.2.1 (by simp [hc])
    have hncomp : t.status ≠ "completed" := by
      intro hcomp
      have hnone := (h.1.mp hcomp).1
      rw [hc] at hnone
      exact Option.noConfusion hnone
    cases hb : t.workflow_id.bind store with
    | none => simpa [hc, hb] using h
    | some wf =>
      cases hn : findNextStep wf cur with
      | none => simp [hc, hb, hn, Inv, hhist]
      | some nid =>
        cases hnd : findNode wf nid with
        | none => simp [hc, hb, hn, hnd, Inv, hncomp, hhist]
        | some nn =>
          by_cases ht : (nn.type == "approval") = true <;>
            simp [hc, hb, hn, hnd, ht, Inv, hncomp, hhist]

/-- `approve_step` preserves the invariant. -/
theorem inv_approve (store : WorkflowStore) (t : Task) (sid uid act : String)
    (c : Option String) (h : Inv t) :
    Inv (approve_step store t sid uid act c).task := by
  unfold approve_step
  cases hf : t.workflow_state.pending_approvals.find?
      (fun a => a.step_id == sid && a.assigned_to == uid) with
  | none => simpa [hf] using h
  | some a =>
    have hpend : t.workflow_state.pending_approvals ≠ [] := by
      intro hp
      rw [hp] at hf
      simp at hf
    have hhist : t.workflow_state.step_history ≠ [] := h.2.2 hpend
    have h1 := inv_update_pending_hist t
      ⟨sid, a.step_name, act, some uid, c⟩
      (t.workflow_state.pending_approvals.filter (fun x => !(x.step_id == sid)))
      h hhist
    by_cases ha : (act == "approve") = true
    · simpa [hf, ha] using inv_progress store _ uid _ h1
    · simpa [hf, ha] using h1

/-- The engine-level `rewind_workflow` preserves the invariant. -/
theorem inv_rewind (t : Task) (tgt u r : String) (h : Inv t) :
    Inv (rewind_workflow t tgt u r).task := by
  unfold rewind_workflow
  cases hf : t.workflow_state.step_history.find? (fun s => s.step_id == tgt) with
  | none => simpa [hf] using h
  | some s =>
    have hhist : t.workflow_state.step_history ≠ [] := by
      intro hp
      rw [hp] at hf
      simp at hf
    simp [hf, Inv, hhist]

/-- The enterprise rewind endpoint preserves the invariant. -/
theorem inv_rewindEp (t : Task) (tgt u r : String) (h : Inv t) :
    Inv (rewind_endpoint t tgt u r).task := by
  unfold rewind_endpoint
  by_cases he : t.workflow_state.step_history.isEmpty
  · simpa [he] using h
  · cases hf : t.workflow_state.step_history.findIdx? (fun s => s.step_id == tgt) with
    | none => simpa [he, hf] using h
    | some i =>
      by_cases hcs : t.workflow_state.completed_steps.isEmpty
      · have hne : t.workflow_state.step_history ≠ [] := by
          intro hp
          rw [hp] at he
          exact he rfl
        have htake : t.workflow_state.step_history.take (i + 1) ≠ [] := by
          cases hl : t.workflow_state.step_history with
          | nil => exact absurd hl hne
          | cons x xs => simp [hl]
        simp [he, hf, hcs, Inv, htake]
      · simpa [he, hf, hcs] using h

/-- Every reachable task record satisfies the invariant. -/
theorem reachable_inv {store : WorkflowStore} {t : Task}
    (h : Reachable store t) : Inv t := by
  induction h with
  | init wid => simp [Inv, mkTask, emptyWorkflowState]
  | step op hr ih =>
    cases op with
    | start wid u v => exact inv_start store _ wid u v ih
    | progress u c => exact inv_progress store _ u c ih
    | approve sid u a c => exact inv_approve store _ sid u a c ih
    | rewind tgt u r => exact inv_rewind _ tgt u r ih
    | rewindEp tgt u r => exact inv_rewindEp _ tgt u r ih

/-- C9: for every task reachable by any sequence of start, progress,
approve/reject and rewind operations, the task's status is `completed`
exactly when its `current_step` is null and its `step_history` is
non-empty. -/
theorem C9_completed_iff (store : WorkflowStore) (t : Task)
    (h : Reachable store t) :
    t.status = "completed" ↔
      t.workflow_state.current_step = none ∧
      t.workflow_state.step_history ≠ [] :=
  (reachable_inv h).1

/-- C9 witness: the invariant at a concrete reachable task (freshly
created, then started and progressed twice to completion on the linear
workflow). -/
theorem C9_completed_iff_witness :
    (applyOp storeLinear
        (applyOp storeLinear
          (applyOp storeLinear (mkTask none) (Op.start "wf-lin" "u" []))
          (Op.progress "u" none))
        (Op.progress "u" none)).status = "completed" ↔
      (applyOp storeLinear
          (applyOp storeLinear
            (applyOp storeLinear (mkTask none) (Op.start "wf-lin" "u" []))
            (Op.progress "u" none))
          (Op.progress "u" none)).workflow_state.current_step = none ∧
      (applyOp storeLinear
          (applyOp storeLinear
            (applyOp storeLinear (mkTask none) (Op.start "wf-lin" "u" []))
            (Op.progress "u" none))
          (Op.progress "u" none)).workflow_state.step_history ≠ [] :=
  C9_completed_iff storeLinear _
    (Reachable.step (Op.progress "u" none)
      (Reachable.step (Op.progress "u" none)
        (Reachable.step (Op.start "wf-lin" "u" []) (Reachable.init none))))

end WorkflowOS
